import Mathlib

/-!
Verification development for the `xf` repository: a Windows ACL-to-POSIX
permission-triad resolver.  The repository's source contains two incomplete
C++ sketches (`src/src/sample.cpp` and the snippet in `src/README.md`) that
call `GetFileSecurity` / `GetSecurityDescriptorDacl`; the resolver subsystem
itself (SecurityDescriptorReader, PrincipalResolver, AceEnumerator,
PermissionEvaluator, TriadFormatter, resolvePermissions) is specified but not
implemented in the source.  We embed both: the sample program exactly as it is
written, and the resolver subsystem modelled from the spec.
-/

namespace Xf

/-! ## Data model (spec §3) -/

/-- A SID: immutable opaque byte sequence, compared only by byte equality. -/
abbrev PrincipalId := List Nat

/-- Kind of an access-control entry: Allow or Deny. -/
inductive AceKind
  | allow
  | deny
deriving DecidableEq, Repr

/-- AccessMask: bitset covering ReadData, WriteData, AppendData, Execute and
the higher-level bits that imply them (GenericRead / GenericWrite /
GenericExecute / FullControl). -/
structure AccessMask where
  readData : Bool
  writeData : Bool
  appendData : Bool
  execute : Bool
  genericRead : Bool
  genericWrite : Bool
  genericExecute : Bool
  fullControl : Bool
deriving DecidableEq, Repr

/-- One allow/deny rule for one principal. -/
structure AccessControlEntry where
  principal : PrincipalId
  mask : AccessMask
  kind : AceKind
  inherited : Bool
deriving DecidableEq, Repr

/-- The three rows of the output triad. -/
inductive PrincipalClass
  | user
  | group
  | everyone
deriving DecidableEq, Repr

/-- The resolved read/write/execute triple for one principal class. -/
structure EffectiveAccess where
  read : Bool
  write : Bool
  execute : Bool
deriving DecidableEq, Repr

/-- A permission bit of the triad (read / write / execute). -/
inductive Perm
  | r
  | w
  | x
deriving DecidableEq, Repr

/-- Project one bit out of an `EffectiveAccess`. -/
def EffectiveAccess.get (a : EffectiveAccess) : Perm → Bool
  | .r => a.read
  | .w => a.write
  | .x => a.execute

/-- No access at all: every bit clear. -/
def noAccess : EffectiveAccess := ⟨false, false, false⟩

/-- Full access: every bit set. -/
def fullAccess : EffectiveAccess := ⟨true, true, true⟩

/-- A security descriptor, as the resolver sees it after the OS accessor
functions: optional owner SID, optional group SID, and a DACL that is either
present (a finite ordered list of ACEs, possibly empty) or NULL/absent
(`none`). -/
structure SecurityDescriptor where
  owner : Option PrincipalId
  group : Option PrincipalId
  dacl : Option (List AccessControlEntry)
deriving DecidableEq, Repr

/-- Error taxonomy of the resolver (spec §7). -/
inductive PermissionError
  | notFound
  | accessDenied
  | malformedDescriptor
  | noDacl
  | platformError (code : Nat)
deriving DecidableEq, Repr

/-! ## Windows constants used by the source -/

def OWNER_SECURITY_INFORMATION : Nat := 1
def GROUP_SECURITY_INFORMATION : Nat := 2
def DACL_SECURITY_INFORMATION : Nat := 4
def ERROR_FILE_NOT_FOUND : Nat := 2
def ERROR_PATH_NOT_FOUND : Nat := 3
def ERROR_ACCESS_DENIED : Nat := 5
def ERROR_INSUFFICIENT_BUFFER : Nat := 122

/-! ## The OS boundary

`GetFileSecurity` is modelled over an OS oracle mapping each path either to a
Win32 error code or to a file whose security descriptor needs `size` bytes of
buffer.  A call with a too-small buffer fails with `ERROR_INSUFFICIENT_BUFFER`
and reports the needed length; a call with a large enough buffer fills the
buffer with the parts of the descriptor selected by the requested
`SECURITY_INFORMATION` bits. -/

/-- The OS-side state for one file: its full security descriptor and the
buffer size `GetFileSecurity` requires for it. -/
structure OsFile where
  sd : SecurityDescriptor
  size : Nat
deriving DecidableEq, Repr

/-- The OS oracle: per path, either a Win32 error code or the file. -/
abbrev Os := String → Except Nat OsFile

/-- The parts of a descriptor selected by a `SECURITY_INFORMATION` mask
(bit 0 = owner, bit 1 = group, bit 2 = DACL). -/
def selectInfo (info : Nat) (d : SecurityDescriptor) : SecurityDescriptor :=
  { owner := if info.testBit 0 then d.owner else none
    group := if info.testBit 1 then d.group else none
    dacl := if info.testBit 2 then d.dacl else none }

/-- Result of one `GetFileSecurity` call: failure with a Win32 code, or the
filled buffer; both report `lpnLengthNeeded`. -/
inductive GfsResult
  | err (code : Nat) (lengthNeeded : Nat)
  | ok (sd : SecurityDescriptor) (lengthNeeded : Nat)
deriving DecidableEq, Repr

/-- `GetFileSecurity(path, info, buffer, bufLen, &lengthNeeded)`. -/
def GetFileSecurity (os : Os) (path : String) (info : Nat) (bufLen : Nat) :
    GfsResult :=
  match os path with
  | .error c => .err c 0
  | .ok f =>
    if f.size ≤ bufLen then .ok (selectInfo info f.sd) f.size
    else .err ERROR_INSUFFICIENT_BUFFER f.size

/-! ## The sample program, `src/src/sample.cpp`, embedded as written

`GetFileSecurity` returns a BOOL, which `main` stores in the DWORD `dwRes`
and then compares with `ERROR_INSUFFICIENT_BUFFER` (122).  We embed the exact
control flow, parameterised over the boolean outcomes of the three external
calls, and record what the run did: whether the allocation branch was entered,
with which `pSD` value `GetSecurityDescriptorDacl` was invoked (if at all),
whether that call succeeded, the messages printed, and the exit code. -/

/-- Outcomes of the external calls `sample.cpp` makes, as BOOLs. -/
structure SampleOs where
  gfs1 : Bool
  gfs2 : Bool
  allocOk : Bool
  getDacl : Bool
deriving DecidableEq, Repr

/-- Address of the buffer `LocalAlloc` would return (any nonzero value). -/
def bufAddr : Nat := 1

/-- Observable record of one run of `sample.cpp`'s `main`. -/
structure SampleRun where
  exitCode : Nat
  allocBranch : Bool
  daclArg : Option (Option Nat)
  daclOk : Bool
  msgs : List String
deriving DecidableEq, Repr

/-- The tail of `main` after the sizing block: `if (dwRes != 0) { ... }` with
the `GetSecurityDescriptorDacl(pSD, ...)` call, else the file-security error
message; either way `return 0`. -/
def sampleAfterSizing (os : SampleOs) (pSD : Option Nat) (dwRes : Nat)
    (allocBranch : Bool) : SampleRun :=
  if dwRes ≠ 0 then
    if os.getDacl then
      { exitCode := 0, allocBranch := allocBranch, daclArg := some pSD
        daclOk := true, msgs := [] }
    else
      { exitCode := 0, allocBranch := allocBranch, daclArg := some pSD
        daclOk := false, msgs := ["Error getting DACL\n"] }
  else
    { exitCode := 0, allocBranch := allocBranch, daclArg := none
      daclOk := false, msgs := ["Error getting file security\n"] }

/-- `main` of `src/src/sample.cpp`: `pSD = NULL`; `dwRes` receives the BOOL
result of the first `GetFileSecurity` call; the allocation branch runs only
when `dwRes == ERROR_INSUFFICIENT_BUFFER`. -/
def sampleMain (os : SampleOs) : SampleRun :=
  let dwRes : Nat := cond os.gfs1 1 0
  if dwRes = ERROR_INSUFFICIENT_BUFFER then
    if os.allocOk then
      sampleAfterSizing os (some bufAddr) (cond os.gfs2 1 0) true
    else
      { exitCode := 1, allocBranch := true, daclArg := none
        daclOk := false, msgs := ["Error allocating memory\n"] }
  else
    sampleAfterSizing os none dwRes false

/-! ## TriadFormatter (spec §4.5)

Modelled from the spec: `TriadFormatter.format` is absent from the source;
the spec gives the contract `format(user, group, everyone) -> 9-character
string`, `UUU GGG EEE`, with `r`/`w`/`x` per set bit and `-` per clear bit. -/

namespace TriadFormatter

/-- One `rwx` triple for a single principal class. -/
def triadOf (a : EffectiveAccess) : String :=
  (if a.read then "r" else "-") ++ (if a.write then "w" else "-") ++
    (if a.execute then "x" else "-")

/-- Modelled from the spec: the 9-character `UUU GGG EEE` display string. -/
def format (u g e : EffectiveAccess) : String :=
  triadOf u ++ triadOf g ++ triadOf e

end TriadFormatter

/-! ## Resource/trace events

The descriptor buffer's lifecycle inside one resolution call is recorded as a
trace: OS calls, the allocation that acquires the buffer, each read access of
the buffer, and its release. -/

/-- One observable event of a resolution call. -/
inductive Ev
  | call (info : Nat) (bufLen : Nat)
  | alloc (size : Nat)
  | access
  | release
deriving DecidableEq, Repr

/-- Is this event the buffer acquisition? -/
def Ev.isAlloc : Ev → Bool
  | .alloc _ => true
  | _ => false

/-- Number of buffer acquisitions in a trace. -/
def countAlloc (l : List Ev) : Nat := l.countP Ev.isAlloc

/-- Whether a trace contains a buffer acquisition. -/
def hasAlloc (l : List Ev) : Bool := l.any Ev.isAlloc

/-- Map a Win32 error code of `GetFileSecurity` into the resolver's error
taxonomy (spec §4.1): file/path not found → `NotFound`, access denied →
`AccessDenied`, anything else → `PlatformError` carrying the code. -/
def mapOsError (c : Nat) : PermissionError :=
  if c = ERROR_FILE_NOT_FOUND ∨ c = ERROR_PATH_NOT_FOUND then .notFound
  else if c = ERROR_ACCESS_DENIED then .accessDenied
  else .platformError c

/-- The `SECURITY_INFORMATION` mask the reader requests: owner, group, DACL. -/
def requestedInfo : Nat :=
  OWNER_SECURITY_INFORMATION ||| GROUP_SECURITY_INFORMATION |||
    DACL_SECURITY_INFORMATION

namespace SecurityDescriptorReader

/-- Modelled from the spec: `SecurityDescriptorReader.read` is absent from the
source (the README sketch shows its intended shape).  Requests owner, group
and DACL information and performs the two-call sizing protocol: a first call
with a zero-length buffer to learn the needed size, then an allocation of
exactly that size and a second call to fill it.  OS failures are mapped into
the error taxonomy; if the second call fails after the allocation the buffer
is released before returning.  Returns the descriptor together with the
event trace of the calls made. -/
def read (os : Os) (path : String) :
    Except PermissionError SecurityDescriptor × List Ev :=
  match GetFileSecurity os path requestedInfo 0 with
  | .ok sd _ => (.ok sd, [.call requestedInfo 0])
  | .err c needed =>
    if c = ERROR_INSUFFICIENT_BUFFER then
      match GetFileSecurity os path requestedInfo needed with
      | .ok sd _ =>
        (.ok sd, [.call requestedInfo 0, .alloc needed, .call requestedInfo needed])
      | .err c2 _ =>
        (.error (mapOsError c2),
         [.call requestedInfo 0, .alloc needed, .call requestedInfo needed, .release])
    else
      (.error (mapOsError c), [.call requestedInfo 0])

end SecurityDescriptorReader

namespace PrincipalResolver

/-- Modelled from the spec: the process-wide well-known "Everyone" principal
(the bytes of the well-known SID S-1-1-0), initialized once, never mutated. -/
def everyone : PrincipalId := [1, 1, 0]

/-- Modelled from the spec: extract the owner SID; `MalformedDescriptor` when
the descriptor lacks an owner field. -/
def ownerOf (d : SecurityDescriptor) : Except PermissionError PrincipalId :=
  match d.owner with
  | some s => .ok s
  | none => .error .malformedDescriptor

/-- Modelled from the spec: extract the primary-group SID;
`MalformedDescriptor` when the descriptor lacks a group field. -/
def groupOf (d : SecurityDescriptor) : Except PermissionError PrincipalId :=
  match d.group with
  | some s => .ok s
  | none => .error .malformedDescriptor

end PrincipalResolver

namespace AceEnumerator

/-- Modelled from the spec: `AceEnumerator.enumerate` walks the DACL and
produces the ACEs in exactly the OS-reported order, never re-sorting; an
absent/NULL DACL is surfaced as the distinct `NoDacl` condition, while a
present-but-empty DACL yields the empty sequence. -/
def enumerate (d : SecurityDescriptor) :
    Except PermissionError (List AccessControlEntry) :=
  match d.dacl with
  | none => .error .noDacl
  | some entries => .ok entries

end AceEnumerator

/-! ## PermissionEvaluator (spec §4.4) -/

/-- Read/Write/Execute derived from an access mask via the spec's fixed rule
table: Read := ReadData ∨ GenericRead ∨ FullControl; Write := WriteData ∨
AppendData ∨ GenericWrite ∨ FullControl; Execute := Execute ∨ GenericExecute ∨
FullControl. -/
def maskToAccess (m : AccessMask) : EffectiveAccess :=
  { read := m.readData || m.genericRead || m.fullControl
    write := m.writeData || m.appendData || m.genericWrite || m.fullControl
    execute := m.execute || m.genericExecute || m.fullControl }

/-- `classify` maps a PrincipalId to the PrincipalClass values it belongs to. -/
abbrev Classifier := PrincipalId → PrincipalClass → Bool

/-- Evaluation state while scanning the DACL in order: the bits granted so
far and the bits already denied. -/
structure EvalState where
  granted : EffectiveAccess
  denied : EffectiveAccess
deriving DecidableEq, Repr

namespace PermissionEvaluator

/-- Modelled from the spec: one step of the in-order scan.  For an entry
whose principal belongs to the class under evaluation: a Deny entry makes its
bits permanently denied, so they can never be re-set by a later Allow; an
Allow entry sets the bits not already denied (first-applicable entry for a
given bit is authoritative, mirroring the Windows rule). -/
def evalStep (classify : Classifier) (cls : PrincipalClass) (st : EvalState)
    (e : AccessControlEntry) : EvalState :=
  if classify e.principal cls then
    let m := maskToAccess e.mask
    match e.kind with
    | .allow =>
      { st with granted :=
        { read := st.granted.read || (m.read && !st.denied.read)
          write := st.granted.write || (m.write && !st.denied.write)
          execute := st.granted.execute || (m.execute && !st.denied.execute) } }
    | .deny =>
      { st with denied :=
        { read := st.denied.read || m.read
          write := st.denied.write || m.write
          execute := st.denied.execute || m.execute } }
  else st

/-- Modelled from the spec: `evaluate(entries, class, classify)` scans the
entries in DACL order and returns the effective access for the class.  Total:
a class with no matching entries resolves to all-false. -/
def evaluate (entries : List AccessControlEntry) (cls : PrincipalClass)
    (classify : Classifier) : EffectiveAccess :=
  (entries.foldl (evalStep classify cls) ⟨noAccess, noAccess⟩).granted

end PermissionEvaluator

/-- Modelled from the spec: the standard classifier built from the owner SID
and the primary-group SID: a SID belongs to `user` iff it equals the owner,
to `group` iff it equals the primary group, and to `everyone` iff it is the
well-known Everyone SID. -/
def stdClassify (owner grp : PrincipalId) : Classifier := fun sid cls =>
  match cls with
  | .user => sid == owner
  | .group => sid == grp
  | .everyone => sid == PrincipalResolver.everyone

/-- The resolver's successful output (spec §6). -/
structure ResolveOutput where
  triad : String
  ownerId : PrincipalId
  groupId : PrincipalId
deriving DecidableEq, Repr

/-- Modelled from the spec: the descriptor-consuming tail of the pipeline —
extract owner and group, enumerate the DACL, evaluate the three classes and
format — with the pipeline's one branch point: the `NoDacl` condition is
consumed internally and short-circuits to full access for all three classes,
bypassing the evaluator.  Returns the result together with the buffer-access
events it performs. -/
def resolveFromDescriptor (d : SecurityDescriptor) :
    Except PermissionError ResolveOutput × List Ev :=
  match PrincipalResolver.ownerOf d with
  | .error e => (.error e, [Ev.access])
  | .ok own =>
    match PrincipalResolver.groupOf d with
    | .error e => (.error e, [Ev.access, Ev.access])
    | .ok grp =>
      match AceEnumerator.enumerate d with
      | .error PermissionError.noDacl =>
        (.ok { triad := TriadFormatter.format fullAccess fullAccess fullAccess
               ownerId := own, groupId := grp },
         [Ev.access, Ev.access, Ev.access])
      | .error e =>
        (.error e, [Ev.access, Ev.access, Ev.access])
      | .ok entries =>
        let classify := stdClassify own grp
        let u := PermissionEvaluator.evaluate entries .user classify
        let g := PermissionEvaluator.evaluate entries .group classify
        let ev := PermissionEvaluator.evaluate entries .everyone classify
        (.ok { triad := TriadFormatter.format u g ev
               ownerId := own, groupId := grp },
         [Ev.access, Ev.access, Ev.access])

/-- Modelled from the spec: the single entry point `resolvePermissions(path)`.
Linear pipeline: read the descriptor, then run the descriptor-consuming tail.
The descriptor buffer is released exactly once, before the call returns, on
every exit path on which it was acquired; the full event trace is returned
alongside the result. -/
def resolvePermissions (os : Os) (path : String) :
    Except PermissionError ResolveOutput × List Ev :=
  match SecurityDescriptorReader.read os path with
  | (.error e, log) => (.error e, log)
  | (.ok d, log) =>
    let r := resolveFromDescriptor d
    (r.1, log ++ r.2 ++ (if hasAlloc log then [Ev.release] else []))

/-! ## Concrete principals, masks and ACEs used by the spec's scenarios -/

/-- The owner SID `S1` of the spec's scenario. -/
def sid1 : PrincipalId := [101]

/-- The primary-group SID `S2` of the spec's scenario. -/
def sid2 : PrincipalId := [102]

/-- Mask with ReadData and WriteData set. -/
def maskRW : AccessMask := ⟨true, true, false, false, false, false, false, false⟩

/-- Mask with only ReadData set. -/
def maskR : AccessMask := ⟨true, false, false, false, false, false, false, false⟩

/-- Mask with only WriteData set. -/
def maskW : AccessMask := ⟨false, true, false, false, false, false, false, false⟩

/-- `Allow(S1, Read|Write)`. -/
def allowS1RW : AccessControlEntry := ⟨sid1, maskRW, .allow, false⟩

/-- `Allow(Everyone, Read)`. -/
def allowEveryoneR : AccessControlEntry :=
  ⟨PrincipalResolver.everyone, maskR, .allow, false⟩

/-- `Allow(Everyone, Read|Write)`. -/
def allowEveryoneRW : AccessControlEntry :=
  ⟨PrincipalResolver.everyone, maskRW, .allow, false⟩

/-- `Allow(Everyone, Write)`. -/
def allowEveryoneW : AccessControlEntry :=
  ⟨PrincipalResolver.everyone, maskW, .allow, false⟩

/-- `Deny(Everyone, Write)`. -/
def denyEveryoneW : AccessControlEntry :=
  ⟨PrincipalResolver.everyone, maskW, .deny, false⟩

/-! ## Concrete OS oracles used as witnesses -/

/-- An OS with one file whose DACL is `[Allow(S1, Read|Write),
Allow(Everyone, Read)]`, owner `S1`, group `S2`. -/
def osScenario : Os :=
  fun _ => .ok ⟨⟨some sid1, some sid2, some [allowS1RW, allowEveryoneR]⟩, 40⟩

/-- An OS with one file whose DACL is NULL/absent. -/
def osNullDacl : Os := fun _ => .ok ⟨⟨some sid1, some sid2, none⟩, 40⟩

/-- An OS with one file whose DACL is present but has zero entries. -/
def osEmptyDacl : Os := fun _ => .ok ⟨⟨some sid1, some sid2, some []⟩, 40⟩

/-- An OS on which every path is missing (`ERROR_FILE_NOT_FOUND`). -/
def osMissing : Os := fun _ => .error ERROR_FILE_NOT_FOUND

/-! ## Lemmas about the evaluator's in-order scan -/

lemma noAccess_get (p : Perm) : noAccess.get p = false := by
  cases p <;> rfl

/-- A step on an entry whose principal does not belong to the class leaves
the evaluation state unchanged. -/
lemma evalStep_not_matching (classify : Classifier) (cls : PrincipalClass)
    (st : EvalState) (e : AccessControlEntry)
    (h : classify e.principal cls = false) :
    PermissionEvaluator.evalStep classify cls st e = st := by
  simp [PermissionEvaluator.evalStep, h]

/-- A bit that is denied while ungranted stays denied and ungranted across
one step. -/
lemma evalStep_keeps_denied (classify : Classifier) (cls : PrincipalClass)
    (p : Perm) (st : EvalState) (e : AccessControlEntry)
    (hd : st.denied.get p = true) (hg : st.granted.get p = false) :
    (PermissionEvaluator.evalStep classify cls st e).denied.get p = true ∧
      (PermissionEvaluator.evalStep classify cls st e).granted.get p = false := by
  obtain ⟨pr, m, k, inh⟩ := e
  by_cases hc : classify pr cls = true
  · cases k <;> cases p <;>
      simp [PermissionEvaluator.evalStep, hc, EffectiveAccess.get] at hd hg ⊢ <;>
      simp [hd, hg]
  · simp only [Bool.not_eq_true] at hc
    simp [evalStep_not_matching classify cls _ ⟨pr, m, k, inh⟩ hc, hd, hg]

/-- A bit that is denied while ungranted can never be granted by the rest of
the scan. -/
lemma foldl_keeps_denied (classify : Classifier) (cls : PrincipalClass)
    (p : Perm) :
    ∀ (l : List AccessControlEntry) (st : EvalState),
      st.denied.get p = true → st.granted.get p = false →
      ((l.foldl (PermissionEvaluator.evalStep classify cls) st).granted.get p
        = false) := by
  intro l
  induction l with
  | nil => intro st _ hg; simpa using hg
  | cons e t ih =>
    intro st hd hg
    rw [List.foldl_cons]
    have h := evalStep_keeps_denied classify cls p st e hd hg
    exact ih _ h.1 h.2

/-- A step on anything that is not a matching Allow carrying the bit keeps
the bit ungranted. -/
lemma evalStep_no_allow_keeps_ungranted (classify : Classifier)
    (cls : PrincipalClass) (p : Perm) (st : EvalState)
    (e : AccessControlEntry) (hg : st.granted.get p = false)
    (he : ¬(e.kind = AceKind.allow ∧ classify e.principal cls = true ∧
        (maskToAccess e.mask).get p = true)) :
    (PermissionEvaluator.evalStep classify cls st e).granted.get p = false := by
  obtain ⟨pr, m, k, inh⟩ := e
  by_cases hc : classify pr cls = true
  · cases k
    · have hm : (maskToAccess m).get p = false := by
        simp [hc] at he
        simpa using he
      cases p <;>
        simp [PermissionEvaluator.evalStep, hc, EffectiveAccess.get] at hg hm ⊢ <;>
        simp [hg, hm]
    · cases p <;>
        simp [PermissionEvaluator.evalStep, hc, EffectiveAccess.get] at hg ⊢ <;>
        simp [hg]
  · simp only [Bool.not_eq_true] at hc
    simp [evalStep_not_matching classify cls _ ⟨pr, m, k, inh⟩ hc, hg]

/-- A scan over entries containing no matching Allow carrying the bit keeps
the bit ungranted. -/
lemma foldl_no_allow_keeps_ungranted (classify : Classifier)
    (cls : PrincipalClass) (p : Perm) :
    ∀ (l : List AccessControlEntry) (st : EvalState),
      st.granted.get p = false →
      (∀ e ∈ l, ¬(e.kind = AceKind.allow ∧ classify e.principal cls = true ∧
          (maskToAccess e.mask).get p = true)) →
      ((l.foldl (PermissionEvaluator.evalStep classify cls) st).granted.get p
        = false) := by
  intro l
  induction l with
  | nil => intro st hg _; simpa using hg
  | cons e t ih =>
    intro st hg hall
    rw [List.foldl_cons]
    refine ih _ (evalStep_no_allow_keeps_ungranted classify cls p st e hg
      (hall e (by simp))) (fun e' he' => hall e' (by simp [he']))

/-- A matching Deny entry carrying the bit marks the bit denied and leaves
the granted bits untouched. -/
lemma evalStep_deny_sets (classify : Classifier) (cls : PrincipalClass)
    (p : Perm) (st : EvalState) (d : AccessControlEntry)
    (hk : d.kind = AceKind.deny) (hc : classify d.principal cls = true)
    (hm : (maskToAccess d.mask).get p = true) :
    (PermissionEvaluator.evalStep classify cls st d).denied.get p = true ∧
      (PermissionEvaluator.evalStep classify cls st d).granted = st.granted := by
  obtain ⟨pr, m, k, inh⟩ := d
  simp only at hk hc hm
  subst hk
  cases p <;>
    simp [PermissionEvaluator.evalStep, hc, EffectiveAccess.get] at hm ⊢ <;>
    simp [hm]

/-- A scan over entries none of which matches the class leaves the state
unchanged. -/
lemma foldl_no_match (classify : Classifier) (cls : PrincipalClass) :
    ∀ (l : List AccessControlEntry) (st : EvalState),
      (∀ e ∈ l, classify e.principal cls = false) →
      l.foldl (PermissionEvaluator.evalStep classify cls) st = st := by
  intro l
  induction l with
  | nil => intro st _; rfl
  | cons e t ih =>
    intro st hall
    rw [List.foldl_cons, evalStep_not_matching classify cls st e (hall e (by simp))]
    exact ih st (fun e' he' => hall e' (by simp [he']))

/-! ## Lemmas about the reader and the pipeline -/

/-- Is this event the buffer release? -/
def Ev.isRelease : Ev → Bool
  | .release => true
  | _ => false

/-- Number of buffer releases in a trace. -/
def countRelease (l : List Ev) : Nat := l.countP Ev.isRelease

lemma selectInfo_requested (d : SecurityDescriptor) :
    selectInfo requestedInfo d = d := by
  have h0 : requestedInfo.testBit 0 = true := by decide
  have h1 : requestedInfo.testBit 1 = true := by decide
  have h2 : requestedInfo.testBit 2 = true := by decide
  simp [selectInfo, h0, h1, h2]

lemma read_os_ok_pos (os : Os) (path : String) (f : OsFile)
    (h : os path = .ok f) (hpos : 0 < f.size) :
    SecurityDescriptorReader.read os path =
      (.ok f.sd, [.call requestedInfo 0, .alloc f.size,
        .call requestedInfo f.size]) := by
  have hle : ¬ f.size ≤ 0 := by omega
  simp [SecurityDescriptorReader.read, GetFileSecurity, h, hle,
    selectInfo_requested]

lemma read_os_ok_zero (os : Os) (path : String) (f : OsFile)
    (h : os path = .ok f) (hz : f.size = 0) :
    SecurityDescriptorReader.read os path =
      (.ok f.sd, [.call requestedInfo 0]) := by
  simp [SecurityDescriptorReader.read, GetFileSecurity, h, hz,
    selectInfo_requested]

lemma read_os_err (os : Os) (path : String) (c : Nat)
    (h : os path = .error c) (hc : c ≠ ERROR_INSUFFICIENT_BUFFER) :
    SecurityDescriptorReader.read os path =
      (.error (mapOsError c), [.call requestedInfo 0]) := by
  simp [SecurityDescriptorReader.read, GetFileSecurity, h, hc]

lemma read_os_err_buf (os : Os) (path : String)
    (h : os path = .error ERROR_INSUFFICIENT_BUFFER) :
    SecurityDescriptorReader.read os path =
      (.error (mapOsError ERROR_INSUFFICIENT_BUFFER),
       [.call requestedInfo 0, .alloc 0, .call requestedInfo 0, .release]) := by
  simp [SecurityDescriptorReader.read, GetFileSecurity, h]

lemma mapOsError_notFound : mapOsError ERROR_FILE_NOT_FOUND = .notFound := by
  decide

lemma mapOsError_accessDenied :
    mapOsError ERROR_ACCESS_DENIED = .accessDenied := by
  decide

lemma mapOsError_other (c : Nat) (h2 : c ≠ ERROR_FILE_NOT_FOUND)
    (h3 : c ≠ ERROR_PATH_NOT_FOUND) (h5 : c ≠ ERROR_ACCESS_DENIED) :
    mapOsError c = .platformError c := by
  simp [mapOsError, h2, h3, h5]

lemma mapOsError_ne_noDacl (c : Nat) :
    mapOsError c ≠ PermissionError.noDacl := by
  unfold mapOsError
  split
  · simp
  · split <;> simp

lemma resolve_read_err (os : Os) (path : String) (e : PermissionError)
    (log : List Ev)
    (h : SecurityDescriptorReader.read os path = (.error e, log)) :
    resolvePermissions os path = (.error e, log) := by
  simp [resolvePermissions, h]

lemma resolve_read_ok (os : Os) (path : String) (d : SecurityDescriptor)
    (log : List Ev)
    (h : SecurityDescriptorReader.read os path = (.ok d, log)) :
    resolvePermissions os path =
      ((resolveFromDescriptor d).1,
       log ++ (resolveFromDescriptor d).2 ++
         (if hasAlloc log then [Ev.release] else [])) := by
  simp [resolvePermissions, h]

lemma rfd_owner_none (d : SecurityDescriptor) (ho : d.owner = none) :
    resolveFromDescriptor d = (.error .malformedDescriptor, [Ev.access]) := by
  simp [resolveFromDescriptor, PrincipalResolver.ownerOf, ho]

lemma rfd_group_none (d : SecurityDescriptor) (o : PrincipalId)
    (ho : d.owner = some o) (hg : d.group = none) :
    resolveFromDescriptor d =
      (.error .malformedDescriptor, [Ev.access, Ev.access]) := by
  simp [resolveFromDescriptor, PrincipalResolver.ownerOf,
    PrincipalResolver.groupOf, ho, hg]

lemma rfd_noDacl (d : SecurityDescriptor) (o g : PrincipalId)
    (ho : d.owner = some o) (hg : d.group = some g) (hd : d.dacl = none) :
    resolveFromDescriptor d =
      (.ok ⟨TriadFormatter.format fullAccess fullAccess fullAccess, o, g⟩,
       [Ev.access, Ev.access, Ev.access]) := by
  simp [resolveFromDescriptor, PrincipalResolver.ownerOf,
    PrincipalResolver.groupOf, AceEnumerator.enumerate, ho, hg, hd]

lemma rfd_entries (d : SecurityDescriptor) (o g : PrincipalId)
    (entries : List AccessControlEntry) (ho : d.owner = some o)
    (hg : d.group = some g) (hd : d.dacl = some entries) :
    resolveFromDescriptor d =
      (.ok ⟨TriadFormatter.format
          (PermissionEvaluator.evaluate entries .user (stdClassify o g))
          (PermissionEvaluator.evaluate entries .group (stdClassify o g))
          (PermissionEvaluator.evaluate entries .everyone (stdClassify o g)),
        o, g⟩,
       [Ev.access, Ev.access, Ev.access]) := by
  simp [resolveFromDescriptor, PrincipalResolver.ownerOf,
    PrincipalResolver.groupOf, AceEnumerator.enumerate, ho, hg, hd]

lemma rfd_fst_ne_noDacl (d : SecurityDescriptor) :
    (resolveFromDescriptor d).1 ≠ .error PermissionError.noDacl := by
  rcases ho : d.owner with _ | o
  · rw [rfd_owner_none d ho]; simp
  · rcases hg : d.group with _ | g
    · rw [rfd_group_none d o ho hg]; simp
    · rcases hd : d.dacl with _ | l
      · rw [rfd_noDacl d o g ho hg hd]; simp
      · rw [rfd_entries d o g l ho hg hd]; simp

lemma rfd_snd_cases (d : SecurityDescriptor) :
    (resolveFromDescriptor d).2 = [Ev.access] ∨
    (resolveFromDescriptor d).2 = [Ev.access, Ev.access] ∨
    (resolveFromDescriptor d).2 = [Ev.access, Ev.access, Ev.access] := by
  rcases ho : d.owner with _ | o
  · rw [rfd_owner_none d ho]; simp
  · rcases hg : d.group with _ | g
    · rw [rfd_group_none d o ho hg]; simp
    · rcases hd : d.dacl with _ | l
      · rw [rfd_noDacl d o g ho hg hd]; simp
      · rw [rfd_entries d o g l ho hg hd]; simp

/-- No decomposition around a `release` exists in a release-free trace. -/
lemma access_after_release_of_no_release (L : List Ev)
    (hn : Ev.release ∉ L) :
    ∀ l1 l2, L = l1 ++ Ev.release :: l2 → Ev.access ∉ l2 := by
  intro l1 l2 h
  exfalso
  apply hn
  rw [h]
  simp

/-- In a trace whose only `release` is the final event, any decomposition
around a `release` has an empty tail. -/
lemma last_release_split :
    ∀ (A l1 l2 : List Ev), Ev.release ∉ A →
      A ++ [Ev.release] = l1 ++ Ev.release :: l2 → l2 = [] := by
  intro A
  induction A with
  | nil =>
    intro l1 l2 _ h
    cases l1 with
    | nil =>
      injection h with h1 h2
      exact h2.symm
    | cons b t =>
      have hlen := congrArg List.length h
      simp [List.length_append] at hlen
  | cons a A ih =>
    intro l1 l2 hn h
    cases l1 with
    | nil =>
      injection h with h1 h2
      exfalso
      apply hn
      rw [← h1]
      exact List.mem_cons_self a A
    | cons b t =>
      injection h with h1 h2
      exact ih t l2 (fun hm => hn (List.mem_cons_of_mem a hm)) h2

/-- In a trace whose only `release` is the final event, nothing — in
particular no `access` — follows the release. -/
lemma no_access_after_sole_release (A : List Ev) (hn : Ev.release ∉ A) :
    ∀ l1 l2, A ++ [Ev.release] = l1 ++ Ev.release :: l2 →
      Ev.access ∉ l2 := by
  intro l1 l2 h
  rw [last_release_split A l1 l2 hn h]
  simp

/-! ## Claim theorems -/

/-- C1: for every ACE sequence, principal class and permission bit, if a Deny
entry matching that class for that bit appears before any Allow entry for the
same class and bit, that bit is false in the resulting `EffectiveAccess`,
regardless of how many later Allow entries set it; in particular
`[Deny(Everyone, Write), Allow(Everyone, Read|Write)]` resolves the Everyone
class to read-only. -/
theorem deny_before_allow_wins :
    (∀ (pre post : List AccessControlEntry) (d : AccessControlEntry)
       (cls : PrincipalClass) (classify : Classifier) (p : Perm),
       d.kind = AceKind.deny → classify d.principal cls = true →
       (maskToAccess d.mask).get p = true →
       (∀ e ∈ pre, ¬(e.kind = AceKind.allow ∧ classify e.principal cls = true ∧
          (maskToAccess e.mask).get p = true)) →
       (PermissionEvaluator.evaluate (pre ++ d :: post) cls classify).get p
         = false)
    ∧ PermissionEvaluator.evaluate [denyEveryoneW, allowEveryoneRW]
        PrincipalClass.everyone (stdClassify sid1 sid2)
        = ⟨true, false, false⟩ := by
  constructor
  · intro pre post d cls classify p hk hc hm hall
    unfold PermissionEvaluator.evaluate
    rw [List.foldl_append, List.foldl_cons]
    have hg1 : (pre.foldl (PermissionEvaluator.evalStep classify cls)
        ⟨noAccess, noAccess⟩).granted.get p = false :=
      foldl_no_allow_keeps_ungranted classify cls p pre ⟨noAccess, noAccess⟩
        (noAccess_get p) hall
    have h2 := evalStep_deny_sets classify cls p
      (pre.foldl (PermissionEvaluator.evalStep classify cls)
        ⟨noAccess, noAccess⟩) d hk hc hm
    exact foldl_keeps_denied classify cls p post _ h2.1 (by rw [h2.2]; exact hg1)
  · decide

/-- Witness for C1 at the spec's scenario: the Write bit of the Everyone
class is false for `[Deny(Everyone, Write), Allow(Everyone, Read|Write)]`. -/
theorem deny_before_allow_wins_witness :
    (PermissionEvaluator.evaluate [denyEveryoneW, allowEveryoneRW]
      PrincipalClass.everyone (stdClassify sid1 sid2)).get Perm.w = false :=
  deny_before_allow_wins.1 [] [allowEveryoneRW] denyEveryoneW
    PrincipalClass.everyone (stdClassify sid1 sid2) Perm.w rfl (by decide) rfl
    (by simp)

/-- C5: `TriadFormatter.format` is a pure total function on three
`EffectiveAccess` values: for every input it returns a 9-character string laid
out as user triple, group triple, everyone triple, with `r`/`w`/`x` for each
set bit and `-` for each clear bit; all bits true on all three classes gives
`"rwxrwxrwx"` and all bits false gives `"---------"`. -/
theorem format_nine_char_triad :
    ∀ u g e : EffectiveAccess,
      (TriadFormatter.format u g e).length = 9 ∧
      (TriadFormatter.format u g e).data =
        [if u.read then 'r' else '-', if u.write then 'w' else '-',
         if u.execute then 'x' else '-', if g.read then 'r' else '-',
         if g.write then 'w' else '-', if g.execute then 'x' else '-',
         if e.read then 'r' else '-', if e.write then 'w' else '-',
         if e.execute then 'x' else '-'] ∧
      TriadFormatter.format fullAccess fullAccess fullAccess = "rwxrwxrwx" ∧
      TriadFormatter.format noAccess noAccess noAccess = "---------" := by
  intro u g e
  obtain ⟨ur, uw, ux⟩ := u
  obtain ⟨gr, gw, gx⟩ := g
  obtain ⟨er, ew, ex⟩ := e
  refine ⟨?_, ?_, rfl, rfl⟩ <;>
    cases ur <;> cases uw <;> cases ux <;> cases gr <;> cases gw <;>
      cases gx <;> cases er <;> cases ew <;> cases ex <;> rfl

/-- C6: `PermissionEvaluator.evaluate` never fails with a domain error: a
principal class with no matching entry resolves to all-false; and in the
concrete scenario with owner `S1`, group `S2` and entries
`[Allow(S1, Read|Write), Allow(Everyone, Read)]`, the triad resolves to
User = `rw-`, Group = `---`, Everyone = `r--`, formatted `"rw----r--"`. -/
theorem no_matching_entries_all_false :
    (∀ (entries : List AccessControlEntry) (cls : PrincipalClass)
       (classify : Classifier),
       (∀ e ∈ entries, classify e.principal cls = false) →
       PermissionEvaluator.evaluate entries cls classify = noAccess)
    ∧ PermissionEvaluator.evaluate [allowS1RW, allowEveryoneR]
        PrincipalClass.user (stdClassify sid1 sid2) = ⟨true, true, false⟩
    ∧ PermissionEvaluator.evaluate [allowS1RW, allowEveryoneR]
        PrincipalClass.group (stdClassify sid1 sid2) = noAccess
    ∧ PermissionEvaluator.evaluate [allowS1RW, allowEveryoneR]
        PrincipalClass.everyone (stdClassify sid1 sid2) = ⟨true, false, false⟩
    ∧ TriadFormatter.format
        (PermissionEvaluator.evaluate [allowS1RW, allowEveryoneR]
          PrincipalClass.user (stdClassify sid1 sid2))
        (PermissionEvaluator.evaluate [allowS1RW, allowEveryoneR]
          PrincipalClass.group (stdClassify sid1 sid2))
        (PermissionEvaluator.evaluate [allowS1RW, allowEveryoneR]
          PrincipalClass.everyone (stdClassify sid1 sid2)) = "rw----r--" := by
  refine ⟨?_, by decide, by decide, by decide, by decide⟩
  intro entries cls classify hall
  unfold PermissionEvaluator.evaluate
  rw [foldl_no_match classify cls entries ⟨noAccess, noAccess⟩ hall]

/-- Witness for C6: the Group class, with no entry for `S2`, resolves to
all-false. -/
theorem no_matching_entries_all_false_witness :
    PermissionEvaluator.evaluate [allowS1RW, allowEveryoneR]
      PrincipalClass.group (stdClassify sid1 sid2) = noAccess :=
  no_matching_entries_all_false.1 [allowS1RW, allowEveryoneR]
    PrincipalClass.group (stdClassify sid1 sid2) (by decide)

/-- C8: `AceEnumerator.enumerate` returns the ACEs in exactly the order the
OS reports them in the DACL; and the evaluator trusts that order rather than
re-sorting or assuming deny-before-allow: swapping a Deny and an Allow for
the same principal and bit changes the result. -/
theorem enumerate_preserves_order :
    (∀ (d : SecurityDescriptor) (entries : List AccessControlEntry),
       d.dacl = some entries → AceEnumerator.enumerate d = .ok entries)
    ∧ PermissionEvaluator.evaluate [allowEveryoneW, denyEveryoneW]
        PrincipalClass.everyone (stdClassify sid1 sid2)
      ≠ PermissionEvaluator.evaluate [denyEveryoneW, allowEveryoneW]
        PrincipalClass.everyone (stdClassify sid1 sid2) := by
  constructor
  · intro d entries h
    simp [AceEnumerator.enumerate, h]
  · decide

/-- Witness for C8: enumeration of a concrete two-entry DACL returns the two
entries in the OS order. -/
theorem enumerate_preserves_order_witness :
    AceEnumerator.enumerate ⟨some sid1, some sid2,
        some [allowS1RW, allowEveryoneR]⟩ = .ok [allowS1RW, allowEveryoneR] :=
  enumerate_preserves_order.1 _ [allowS1RW, allowEveryoneR] rfl

/-- C9: in `sample.cpp`, for every BOOL value (0 or 1) the first
`GetFileSecurity` call can return, the comparison
`dwRes == ERROR_INSUFFICIENT_BUFFER` is false, so the allocation branch is
unreachable and, whenever `GetSecurityDescriptorDacl` is reached, it is
called with `pSD` still NULL. -/
theorem sample_alloc_branch_unreachable :
    ∀ os : SampleOs,
      ¬(cond os.gfs1 1 0 = ERROR_INSUFFICIENT_BUFFER) ∧
      (sampleMain os).allocBranch = false ∧
      ((sampleMain os).daclArg = none ∨ (sampleMain os).daclArg = some none) := by
  intro os
  obtain ⟨a, b, c, d⟩ := os
  cases a <;> cases b <;> cases c <;> cases d <;> decide

/-- C10: in `sample.cpp`, when the descriptor is "obtained" (`dwRes != 0`)
but `GetSecurityDescriptorDacl` fails, `main` prints an error message yet
still returns exit code 0 — so a zero exit code does not imply the DACL was
retrieved. -/
theorem sample_zero_exit_despite_dacl_failure :
    ∀ os : SampleOs, os.gfs1 = true → os.getDacl = false →
      (sampleMain os).exitCode = 0 ∧
      "Error getting DACL\n" ∈ (sampleMain os).msgs ∧
      (sampleMain os).daclOk = false := by
  intro os
  obtain ⟨a, b, c, d⟩ := os
  revert a b c d
  decide

/-- Witness for C10: a run whose first `GetFileSecurity` "succeeds" and whose
`GetSecurityDescriptorDacl` fails exits with code 0. -/
theorem sample_zero_exit_despite_dacl_failure_witness :
    (sampleMain ⟨true, true, true, false⟩).exitCode = 0 ∧
    "Error getting DACL\n" ∈ (sampleMain ⟨true, true, true, false⟩).msgs ∧
    (sampleMain ⟨true, true, true, false⟩).daclOk = false :=
  sample_zero_exit_despite_dacl_failure ⟨true, true, true, false⟩ rfl rfl

/-- C3: `SecurityDescriptorReader.read` requests owner, group and DACL
information (bits 0, 1, 2 of the requested `SECURITY_INFORMATION`) and
performs the two-call sizing protocol: the first OS call uses a zero-length
buffer and discovers the required size, then a buffer of exactly that size is
allocated and a second call fills it; the descriptor returned on success is
the one the second call produced. -/
theorem reader_two_call_protocol :
    ∀ (os : Os) (path : String) (f : OsFile),
      os path = .ok f → 0 < f.size →
      (SecurityDescriptorReader.read os path).2 =
        [.call requestedInfo 0, .alloc f.size, .call requestedInfo f.size]
      ∧ GetFileSecurity os path requestedInfo 0 =
          .err ERROR_INSUFFICIENT_BUFFER f.size
      ∧ GetFileSecurity os path requestedInfo f.size = .ok f.sd f.size
      ∧ (SecurityDescriptorReader.read os path).1 = .ok f.sd
      ∧ requestedInfo.testBit 0 = true ∧ requestedInfo.testBit 1 = true
      ∧ requestedInfo.testBit 2 = true := by
  intro os path f h hpos
  have hle : ¬ f.size ≤ 0 := by omega
  refine ⟨?_, ?_, ?_, ?_, by decide, by decide, by decide⟩
  · rw [read_os_ok_pos os path f h hpos]
  · simp [GetFileSecurity, h, hle]
  · simp [GetFileSecurity, h, selectInfo_requested]
  · rw [read_os_ok_pos os path f h hpos]

/-- Witness for C3: the protocol on a concrete OS whose file needs a
40-byte descriptor buffer. -/
theorem reader_two_call_protocol_witness :
    (SecurityDescriptorReader.read osScenario "a").2 =
      [.call requestedInfo 0, .alloc 40, .call requestedInfo 40]
    ∧ GetFileSecurity osScenario "a" requestedInfo 0 =
        .err ERROR_INSUFFICIENT_BUFFER 40
    ∧ GetFileSecurity osScenario "a" requestedInfo 40 =
        .ok ⟨some sid1, some sid2, some [allowS1RW, allowEveryoneR]⟩ 40
    ∧ (SecurityDescriptorReader.read osScenario "a").1 =
        .ok ⟨some sid1, some sid2, some [allowS1RW, allowEveryoneR]⟩
    ∧ requestedInfo.testBit 0 = true ∧ requestedInfo.testBit 1 = true
    ∧ requestedInfo.testBit 2 = true :=
  reader_two_call_protocol osScenario "a"
    ⟨⟨some sid1, some sid2, some [allowS1RW, allowEveryoneR]⟩, 40⟩ rfl
    (by decide)

/-- C2: the pipeline distinguishes a NULL/absent DACL from a
present-but-empty DACL: only an absent DACL is classified `NoDacl`; `NoDacl`
is consumed internally (never propagated as an error of
`resolvePermissions`) and short-circuits to full access `rwx` for all three
classes; a present DACL with zero entries is enumerated as the empty
sequence and resolves every class to all-false. -/
theorem null_dacl_distinct_from_empty :
    (∀ d : SecurityDescriptor, d.dacl = none →
       AceEnumerator.enumerate d = .error PermissionError.noDacl)
    ∧ (∀ (d : SecurityDescriptor) (l : List AccessControlEntry),
        d.dacl = some l → AceEnumerator.enumerate d = .ok l)
    ∧ (∀ (cls : PrincipalClass) (classify : Classifier),
        PermissionEvaluator.evaluate [] cls classify = noAccess)
    ∧ (∀ (os : Os) (path : String),
        (resolvePermissions os path).1 ≠ .error PermissionError.noDacl)
    ∧ (∀ (os : Os) (path : String) (f : OsFile) (o g : PrincipalId),
        os path = .ok f → f.sd.owner = some o → f.sd.group = some g →
        (f.sd.dacl = none →
          (resolvePermissions os path).1 = .ok ⟨"rwxrwxrwx", o, g⟩)
        ∧ (f.sd.dacl = some [] →
          (resolvePermissions os path).1 = .ok ⟨"---------", o, g⟩)) := by
  refine ⟨?_, ?_, ?_, ?_, ?_⟩
  · intro d h
    simp [AceEnumerator.enumerate, h]
  · intro d l h
    simp [AceEnumerator.enumerate, h]
  · intro cls classify
    rfl
  · intro os path
    rcases hos : os path with c | f
    · by_cases hc : c = ERROR_INSUFFICIENT_BUFFER
      · subst hc
        rw [resolve_read_err os path _ _ (read_os_err_buf os path hos)]
        simpa using mapOsError_ne_noDacl ERROR_INSUFFICIENT_BUFFER
      · rw [resolve_read_err os path _ _ (read_os_err os path c hos hc)]
        simpa using mapOsError_ne_noDacl c
    · rcases Nat.eq_zero_or_pos f.size with hz | hpos
      · rw [resolve_read_ok os path _ _ (read_os_ok_zero os path f hos hz)]
        exact rfd_fst_ne_noDacl f.sd
      · rw [resolve_read_ok os path _ _ (read_os_ok_pos os path f hos hpos)]
        exact rfd_fst_ne_noDacl f.sd
  · intro os path f o g hos ho hg
    constructor
    · intro hd
      rcases Nat.eq_zero_or_pos f.size with hz | hpos
      · rw [resolve_read_ok os path _ _ (read_os_ok_zero os path f hos hz),
          rfd_noDacl f.sd o g ho hg hd]
        rfl
      · rw [resolve_read_ok os path _ _ (read_os_ok_pos os path f hos hpos),
          rfd_noDacl f.sd o g ho hg hd]
        rfl
    · intro hd
      rcases Nat.eq_zero_or_pos f.size with hz | hpos
      · rw [resolve_read_ok os path _ _ (read_os_ok_zero os path f hos hz),
          rfd_entries f.sd o g [] ho hg hd]
        rfl
      · rw [resolve_read_ok os path _ _ (read_os_ok_pos os path f hos hpos),
          rfd_entries f.sd o g [] ho hg hd]
        rfl

/-- Witness for C2: a file with a NULL DACL resolves to full access for all
three classes. -/
theorem null_dacl_distinct_from_empty_witness :
    (resolvePermissions osNullDacl "a").1 = .ok ⟨"rwxrwxrwx", sid1, sid2⟩ :=
  (null_dacl_distinct_from_empty.2.2.2.2 osNullDacl "a"
      ⟨⟨some sid1, some sid2, none⟩, 40⟩ sid1 sid2 rfl rfl rfl).1 rfl

/-- C7: for every path that does not exist, `resolvePermissions` fails with
`NotFound` (the `Except` result carries no partial output); and every
lower-layer failure — `NotFound`, `AccessDenied`, `MalformedDescriptor`,
`PlatformError` with its OS code — is surfaced unchanged to the top-level
call, with no local recovery or retry. -/
theorem errors_surface_unchanged :
    ∀ (os : Os) (path : String),
      (∀ (e : PermissionError) (log : List Ev),
        SecurityDescriptorReader.read os path = (.error e, log) →
        (resolvePermissions os path).1 = .error e)
      ∧ (os path = .error ERROR_FILE_NOT_FOUND →
          (resolvePermissions os path).1 = .error PermissionError.notFound)
      ∧ (os path = .error ERROR_ACCESS_DENIED →
          (resolvePermissions os path).1 = .error PermissionError.accessDenied)
      ∧ (∀ c : Nat, os path = .error c → c ≠ ERROR_FILE_NOT_FOUND →
          c ≠ ERROR_PATH_NOT_FOUND → c ≠ ERROR_ACCESS_DENIED →
          (resolvePermissions os path).1 = .error (.platformError c))
      ∧ (∀ f : OsFile, os path = .ok f → f.sd.owner = none →
          (resolvePermissions os path).1 =
            .error PermissionError.malformedDescriptor) := by
  intro os path
  refine ⟨?_, ?_, ?_, ?_, ?_⟩
  · intro e log h
    rw [resolve_read_err os path e log h]
  · intro h
    rw [resolve_read_err os path _ _ (read_os_err os path _ h (by decide))]
    simp [mapOsError_notFound]
  · intro h
    rw [resolve_read_err os path _ _ (read_os_err os path _ h (by decide))]
    simp [mapOsError_accessDenied]
  · intro c h h2 h3 h5
    by_cases hc : c = ERROR_INSUFFICIENT_BUFFER
    · subst hc
      rw [resolve_read_err os path _ _ (read_os_err_buf os path h)]
      simp [mapOsError_other _ h2 h3 h5]
    · rw [resolve_read_err os path _ _ (read_os_err os path c h hc)]
      simp [mapOsError_other c h2 h3 h5]
  · intro f h ho
    rcases Nat.eq_zero_or_pos f.size with hz | hpos
    · rw [resolve_read_ok os path _ _ (read_os_ok_zero os path f h hz),
        rfd_owner_none f.sd ho]
    · rw [resolve_read_ok os path _ _ (read_os_ok_pos os path f h hpos),
        rfd_owner_none f.sd ho]

/-- Witness for C7: on an OS where the path is missing,
`resolvePermissions` fails with `NotFound`. -/
theorem errors_surface_unchanged_witness :
    (resolvePermissions osMissing "a").1 = .error PermissionError.notFound :=
  (errors_surface_unchanged osMissing "a").2.1 rfl

/-- C4: in every execution of a resolution call, the descriptor buffer is
released exactly as many times as it is acquired (at most once), on every
exit path including every error path, and it is never read after release:
no `access` event follows a `release` event in the trace. -/
theorem buffer_released_once_never_read_after :
    ∀ (os : Os) (path : String),
      countAlloc (resolvePermissions os path).2 ≤ 1
      ∧ countRelease (resolvePermissions os path).2 =
          countAlloc (resolvePermissions os path).2
      ∧ ∀ l1 l2 : List Ev,
          (resolvePermissions os path).2 = l1 ++ Ev.release :: l2 →
          Ev.access ∉ l2 := by
  intro os path
  rcases hos : os path with c | f
  · by_cases hc : c = ERROR_INSUFFICIENT_BUFFER
    · subst hc
      rw [resolve_read_err os path _ _ (read_os_err_buf os path hos)]
      exact ⟨by decide, by decide,
        no_access_after_sole_release
          [Ev.call requestedInfo 0, Ev.alloc 0, Ev.call requestedInfo 0]
          (by simp)⟩
    · rw [resolve_read_err os path _ _ (read_os_err os path c hos hc)]
      exact ⟨by simp [countAlloc, List.countP_cons, Ev.isAlloc],
        by simp [countAlloc, countRelease, List.countP_cons, Ev.isAlloc,
          Ev.isRelease],
        access_after_release_of_no_release _ (by simp)⟩
  · rcases Nat.eq_zero_or_pos f.size with hz | hpos
    · rw [resolve_read_ok os path _ _ (read_os_ok_zero os path f hos hz)]
      have hsm : (if hasAlloc [Ev.call requestedInfo 0] = true
          then [Ev.release] else ([] : List Ev)) = [] := by
        simp [hasAlloc, Ev.isAlloc]
      rw [hsm]
      rcases rfd_snd_cases f.sd with ha | ha | ha <;> rw [ha] <;>
        exact ⟨by simp [countAlloc, List.countP_cons, List.countP_append,
            Ev.isAlloc],
          by simp [countAlloc, countRelease, List.countP_cons,
            List.countP_append, Ev.isAlloc, Ev.isRelease],
          access_after_release_of_no_release _ (by simp)⟩
    · rw [resolve_read_ok os path _ _ (read_os_ok_pos os path f hos hpos)]
      have hsm : (if hasAlloc [Ev.call requestedInfo 0, Ev.alloc f.size,
          Ev.call requestedInfo f.size] = true
          then [Ev.release] else ([] : List Ev)) = [Ev.release] := by
        simp [hasAlloc, Ev.isAlloc]
      rw [hsm]
      rcases rfd_snd_cases f.sd with ha | ha | ha <;> rw [ha] <;>
        exact ⟨by simp [countAlloc, List.countP_cons, List.countP_append,
            Ev.isAlloc],
          by simp [countAlloc, countRelease, List.countP_cons,
            List.countP_append, Ev.isAlloc, Ev.isRelease],
          no_access_after_sole_release _ (by simp)⟩

/-- Witness for C4: the trace of a successful resolution on a concrete OS
acquires once, releases once, and no decomposition of it around the release
leaves an `access` after it. -/
theorem buffer_released_once_never_read_after_witness :
    countAlloc (resolvePermissions osScenario "a").2 ≤ 1
    ∧ countRelease (resolvePermissions osScenario "a").2 =
        countAlloc (resolvePermissions osScenario "a").2
    ∧ Ev.access ∉ ([] : List Ev) :=
  ⟨(buffer_released_once_never_read_after osScenario "a").1,
   (buffer_released_once_never_read_after osScenario "a").2.1,
   (buffer_released_once_never_read_after osScenario "a").2.2
     [Ev.call requestedInfo 0, Ev.alloc 40, Ev.call requestedInfo 40,
      Ev.access, Ev.access, Ev.access] [] (by decide)⟩

end Xf
